import Mathlib

/-!
# Verification of `validate_summary_generated_by_ai.py`

A shallow embedding of the video-summary metadata validator.  Parsed
JSON/YAML data is modelled by the inductive type `Value`; Python runtime
exceptions (KeyError, TypeError, AttributeError, re.error) are modelled by
the `Except PyErr` monad.  Modelling choices, stated once here:

* JSON/YAML numbers are modelled as integers (`Value.int`).  None of the
  verified claims involves fractional values, and the validator never
  distinguishes `int` from `float` (`isinstance(x, (int, float))` accepts
  both).  Python `bool` is a subclass of `int`, so `Value.bool` counts as a
  number for the type check and compares numerically.
* Mappings are modelled with string keys (the only probes the code performs
  are string-keyed; a non-string YAML key can never match such a probe, so
  dropping it is behaviour preserving).  Lookup takes the first occurrence.
* `re.match` is modelled by a derivative-based engine for the regex
  fragment the rule sets use (optional leading `^`, literals, escapes,
  `.`, character classes, `*`, `+`, `?`).  Patterns outside this fragment
  are conservatively modelled as a parse failure (`PyErr.reError`).
* `repr` of a string is modelled as the string wrapped in single quotes,
  without escape handling; it only feeds human-readable error messages.
-/

/-- A parsed JSON/YAML value (Python object as produced by `json.loads` /
`yaml.safe_load`).  `null` doubles as Python's `None`. -/
inductive Value where
  | null : Value
  | bool (b : Bool) : Value
  | int (n : Int) : Value
  | str (s : String) : Value
  | list (xs : List Value) : Value
  | dict (xs : List (String × Value)) : Value
deriving Repr

/-- Python runtime exceptions that the embedded code can raise. -/
inductive PyErr where
  | keyError : PyErr
  | typeError : PyErr
  | attributeError : PyErr
  | reError : PyErr
deriving Repr, DecidableEq

/-- First-occurrence lookup in a string-keyed mapping (Python `dict` access). -/
def dictLookup : List (String × Value) → String → Option Value
  | [], _ => none
  | (k, v) :: rest, key => if k = key then some v else dictLookup rest key

/-- Python truthiness of a value (`bool(x)`). -/
def pyTruthy : Value → Bool
  | .null => false
  | .bool b => b
  | .int n => n != 0
  | .str s => !s.isEmpty
  | .list xs => !xs.isEmpty
  | .dict xs => !xs.isEmpty

/-- `isinstance(v, str)`. -/
def isStr : Value → Bool
  | .str _ => true
  | _ => false

/-- `isinstance(v, (int, float))`; Python `bool` is a subclass of `int`. -/
def isNumV : Value → Bool
  | .int _ => true
  | .bool _ => true
  | _ => false

/-- `isinstance(v, list)`. -/
def isListV : Value → Bool
  | .list _ => true
  | _ => false

/-- `isinstance(v, dict)`. -/
def isDictV : Value → Bool
  | .dict _ => true
  | _ => false

/-- Numeric magnitude of a value satisfying `isNumV` (`True == 1`). -/
def numOf : Value → Int
  | .int n => n
  | .bool b => if b then 1 else 0
  | _ => 0

mutual

/-- Python `==` between two values: numeric cross-equality between `bool`
and `int`, structural equality elsewhere, `False` across kinds. -/
def pyEq : Value → Value → Bool
  | .null, .null => true
  | .bool a, .bool b => a == b
  | .bool a, .int n => (if a then (1 : Int) else 0) == n
  | .int n, .bool a => n == (if a then (1 : Int) else 0)
  | .int m, .int n => m == n
  | .str s, .str t => s == t
  | .list xs, .list ys => pyEqList xs ys
  | .dict xs, .dict ys => pyEqEntriesFwd xs ys && pyEqKeysBwd ys xs
  | _, _ => false

/-- Element-wise Python `==` on lists. -/
def pyEqList : List Value → List Value → Bool
  | [], [] => true
  | x :: xs, y :: ys => pyEq x y && pyEqList xs ys
  | _, _ => false

/-- Does the entry `(k, v)` occur (first occurrence of `k`) with a
`pyEq`-equal value in `ys`? -/
def pyEqEntry : Value → String → List (String × Value) → Bool
  | _, _, [] => false
  | v, k, (k', w) :: rest => if k' = k then pyEq v w else pyEqEntry v k rest

/-- Every entry of `xs` is matched in `ys` (forward inclusion of dicts). -/
def pyEqEntriesFwd : List (String × Value) → List (String × Value) → Bool
  | [], _ => true
  | (k, v) :: xs, ys => pyEqEntry v k ys && pyEqEntriesFwd xs ys

/-- Every key of `ys` occurs in `xs` (backward key inclusion of dicts). -/
def pyEqKeysBwd : List (String × Value) → List (String × Value) → Bool
  | [], _ => true
  | (k, _) :: ys, xs => (dictLookup xs k).isSome && pyEqKeysBwd ys xs

end

mutual

/-- Python `repr` for the modelled values (strings quoted, no escaping). -/
def pyReprOf : Value → String
  | .null => "None"
  | .bool b => if b then "True" else "False"
  | .int n => toString n
  | .str s => "'" ++ s ++ "'"
  | .list xs => "[" ++ pyReprList xs ++ "]"
  | .dict xs => "\x7b" ++ pyReprEntries xs ++ "\x7d"

/-- Comma-separated `repr`s of list elements. -/
def pyReprList : List Value → String
  | [] => ""
  | [x] => pyReprOf x
  | x :: xs => pyReprOf x ++ ", " ++ pyReprList xs

/-- Comma-separated `repr`s of dict entries. -/
def pyReprEntries : List (String × Value) → String
  | [] => ""
  | [(k, v)] => "'" ++ k ++ "': " ++ pyReprOf v
  | (k, v) :: xs => "'" ++ k ++ "': " ++ pyReprOf v ++ ", " ++ pyReprEntries xs

end

/-- Python `==` against a string literal (as in `field_type == "string"`):
true exactly for an equal string, false for every other value.  Agrees
with `pyEq` on these comparisons but is defined non-mutually. -/
def pyEqStr (v : Value) (s : String) : Bool :=
  match v with
  | .str t => t == s
  | _ => false

/-- Python `str()` as used by f-string interpolation. -/
def pyStrOf : Value → String
  | .str s => s
  | v => pyReprOf v

/-- Is `needle` a contiguous substring of `hay` (Python `a in b` on
strings)? -/
def strContainsChars : List Char → List Char → Bool
  | hay, needle =>
    needle.isPrefixOf hay ||
      match hay with
      | [] => false
      | _ :: rest => strContainsChars rest needle

/-- `d.get(k, default)`: raises AttributeError unless `d` is a dict. -/
def pyGetD (v : Value) (k : String) (dflt : Value) : Except PyErr Value :=
  match v with
  | .dict xs => .ok ((dictLookup xs k).getD dflt)
  | _ => .error .attributeError

/-- `d[k]` with a string key: KeyError when missing, TypeError when `d`
is not a dict (a string or list cannot be indexed by a string). -/
def pyIndexS (v : Value) (k : String) : Except PyErr Value :=
  match v with
  | .dict xs =>
    match dictLookup xs k with
    | some w => .ok w
    | none => .error .keyError
  | _ => .error .typeError

/-- Python `x in container`: key membership for dicts, `==`-membership for
lists, substring for strings, TypeError otherwise. -/
def pyContains (container : Value) (item : Value) : Except PyErr Bool :=
  match container with
  | .dict xs =>
    match item with
    | .str k => .ok (dictLookup xs k).isSome
    | .list _ => .error .typeError
    | .dict _ => .error .typeError
    | _ => .ok false
  | .list xs => .ok (xs.any (fun x => pyEq x item))
  | .str s =>
    match item with
    | .str t => .ok (strContainsChars s.data t.data)
    | _ => .error .typeError
  | _ => .error .typeError

/-- Python `n < v` where `n` is an `int` (e.g. `len(...)`): TypeError when
`v` is not numeric. -/
def pyLtIntV (n : Int) (v : Value) : Except PyErr Bool :=
  match v with
  | .int m => .ok (decide (n < m))
  | .bool b => .ok (decide (n < if b then 1 else 0))
  | _ => .error .typeError

/-- Python `n > v` where `n` is an `int`: TypeError when `v` is not
numeric. -/
def pyGtIntV (n : Int) (v : Value) : Except PyErr Bool :=
  match v with
  | .int m => .ok (decide (m < n))
  | .bool b => .ok (decide ((if b then (1 : Int) else 0) < n))
  | _ => .error .typeError

/-! ## Regex engine: the fragment of `re.match` used by the rule sets -/

/-- Regular expressions: literals, `.` (any char except newline), character
classes, sequencing, alternation, Kleene star, plus the empty and the
never-matching regex. -/
inductive Regex where
  | nomatch : Regex
  | eps : Regex
  | anyChar : Regex
  | lit (c : Char) : Regex
  | cls (neg : Bool) (ranges : List (Char × Char)) : Regex
  | seq (a b : Regex) : Regex
  | alt (a b : Regex) : Regex
  | star (r : Regex) : Regex
deriving Repr, DecidableEq

/-- Does the regex accept the empty string? -/
def Regex.nullable : Regex → Bool
  | .nomatch => false
  | .eps => true
  | .anyChar => false
  | .lit _ => false
  | .cls _ _ => false
  | .seq a b => a.nullable && b.nullable
  | .alt a b => a.nullable || b.nullable
  | .star _ => true

/-- Does a character class (with optional negation) accept a character? -/
def clsMatches (neg : Bool) (ranges : List (Char × Char)) (c : Char) : Bool :=
  let inR := ranges.any (fun p => p.1 ≤ c && c ≤ p.2)
  if neg then !inR else inR

/-- Brzozowski derivative of a regex by one character. -/
def Regex.deriv : Regex → Char → Regex
  | .nomatch, _ => .nomatch
  | .eps, _ => .nomatch
  | .anyChar, c => if c = '\n' then .nomatch else .eps
  | .lit c', c => if c = c' then .eps else .nomatch
  | .cls neg rs, c => if clsMatches neg rs c then .eps else .nomatch
  | .seq a b, c =>
    if a.nullable then .alt (.seq (a.deriv c) b) (b.deriv c) else .seq (a.deriv c) b
  | .alt a b, c => .alt (a.deriv c) (b.deriv c)
  | .star r, c => .seq (r.deriv c) (.star r)

/-- `re.match` semantics: does the regex match some prefix of the input
(anchored at position 0)? -/
def matchPrefix (r : Regex) : List Char → Bool
  | [] => r.nullable
  | c :: rest => r.nullable || matchPrefix (r.deriv c) rest

/-- Is this character one of the metacharacters the parser treats
specially (braces included, written by code point)? -/
def isMetaChar (c : Char) : Bool :=
  c = '*' || c = '+' || c = '?' || c = '(' || c = ')' || c = '|' ||
  c = '^' || c = '$' || c = '[' || c = ']' || c = '\\' || c = '.' ||
  c.toNat == 123 || c.toNat == 125

/-- Parse the items of a character class up to the closing `]`, returning
the accumulated ranges and the rest of the input.  Escapes of
non-alphanumeric characters are literals; class shorthands (`\d` …) are
outside the supported fragment. -/
def parseClassItems : Nat → List Char → List (Char × Char) →
    Option (List (Char × Char) × List Char)
  | 0, _, _ => none
  | _ + 1, [], _ => none
  | fuel + 1, c :: rest, acc =>
    if c = ']' then some (acc.reverse, rest)
    else
      match (if c = '\\' then
               match rest with
               | [] => none
               | e :: rest' => if e.isAlphanum then none else some (e, rest')
             else some (c, rest)) with
      | none => none
      | some (c1, rest1) =>
        match rest1 with
        | '-' :: d :: rest2 =>
          if d = ']' then
            some (acc.reverse ++ [(c1, c1), ('-', '-')], rest2)
          else if d = '\\' then none
          else parseClassItems fuel rest2 ((c1, d) :: acc)
        | _ => parseClassItems fuel rest1 ((c1, c1) :: acc)

/-- Parse a sequence of atoms (literal, escape, `.`, class), each with an
optional `*`/`+`/`?` postfix.  Constructs outside the fragment make the
whole parse fail. -/
def parseSeq : Nat → List Char → Option Regex
  | 0, _ => none
  | _ + 1, [] => some .eps
  | fuel + 1, c :: rest =>
    match (if c = '.' then some (Regex.anyChar, rest)
           else if c = '\\' then
             match rest with
             | [] => none
             | e :: rest' => if e.isAlphanum then none else some (Regex.lit e, rest')
           else if c = '[' then
             match rest with
             | '^' :: rest' =>
               match parseClassItems (rest'.length + 1) rest' [] with
               | some (rs, rem) => some (Regex.cls true rs, rem)
               | none => none
             | _ =>
               match parseClassItems (rest.length + 1) rest [] with
               | some (rs, rem) => some (Regex.cls false rs, rem)
               | none => none
           else if isMetaChar c then none
           else some (Regex.lit c, rest)) with
    | none => none
    | some (b, rem) =>
      match rem with
      | '*' :: rem' =>
        match parseSeq fuel rem' with
        | some r => some (.seq (.star b) r)
        | none => none
      | '+' :: rem' =>
        match parseSeq fuel rem' with
        | some r => some (.seq (.seq b (.star b)) r)
        | none => none
      | '?' :: rem' =>
        match parseSeq fuel rem' with
        | some r => some (.seq (.alt b .eps) r)
        | none => none
      | _ =>
        match parseSeq fuel rem with
        | some r => some (.seq b r)
        | none => none

/-- Compile a pattern string.  A leading `^` is redundant under `re.match`
(which already anchors at position 0) and is skipped. -/
def parsePattern (p : String) : Option Regex :=
  match p.data with
  | '^' :: rest => parseSeq (rest.length + 1) rest
  | cs => parseSeq (cs.length + 1) cs

/-! ## The Field Validator: `validate_field_structure` -/

/-- `v is None` (`Value.null` models Python `None`). -/
def isNull : Value → Bool
  | .null => true
  | _ => false

/-- The per-field error messages all share this shape. -/
def fieldMsg (name tail : String) : String :=
  "Field '" ++ name ++ "' " ++ tail

/-- The required-field error message. -/
def msgRequired (name : String) : String :=
  "Required field '" ++ name ++ "' is missing"

/-- The type-check block: at most one error from the `if`/`elif` chain on
`rule.type`. -/
def typeErrs (fr : List (String × Value)) (fv : Value) (name : String) : List String :=
  let ft := (dictLookup fr "type").getD .null
  if pyEqStr ft "string" && !isStr fv then [fieldMsg name "should be a string"]
  else if pyEqStr ft "number" && !isNumV fv then [fieldMsg name "should be a number"]
  else if pyEqStr ft "array" && !isListV fv then [fieldMsg name "should be an array"]
  else if pyEqStr ft "object" && !isDictV fv then [fieldMsg name "should be an object"]
  else []

/-- The `min_length` check for string values. -/
def minLengthErrs (fr : List (String × Value)) (v : String) (name : String) :
    Except PyErr (List String) :=
  match (dictLookup fr "min_length").getD .null with
  | .null => .ok []
  | ml => do
    let b ← pyLtIntV (v.length : Int) ml
    pure (if b then [fieldMsg name ("length should be at least " ++ pyStrOf ml)] else [])

/-- The `pattern` check for string values (`re.match`). -/
def patternErrs (fr : List (String × Value)) (v : String) (name : String) :
    Except PyErr (List String) :=
  match (dictLookup fr "pattern").getD .null with
  | .null => .ok []
  | .str p =>
    match parsePattern p with
    | some r =>
      .ok (if matchPrefix r v.data then [] else [fieldMsg name "does not match required pattern"])
    | none => .error .reError
  | _ => .error .typeError

/-- The `enum` membership check for string values. -/
def enumErrs (fr : List (String × Value)) (v : String) (name : String) :
    Except PyErr (List String) :=
  match (dictLookup fr "enum").getD .null with
  | .null => .ok []
  | ev => do
    let mem ← pyContains ev (.str v)
    pure (if mem then [] else [fieldMsg name ("should be one of " ++ pyStrOf ev)])

/-- The `min_items` check for array values. -/
def arrayErrs (fr : List (String × Value)) (xs : List Value) (name : String) :
    Except PyErr (List String) :=
  match (dictLookup fr "min_items").getD .null with
  | .null => .ok []
  | mi => do
    let b ← pyLtIntV (xs.length : Int) mi
    pure (if b then [fieldMsg name ("should have at least " ++ pyStrOf mi ++ " items")] else [])

/-- The `min` inclusive lower bound for numeric values. -/
def minBoundErrs (fr : List (String × Value)) (n : Int) (name : String) :
    Except PyErr (List String) :=
  match (dictLookup fr "min").getD .null with
  | .null => .ok []
  | mn => do
    let b ← pyLtIntV n mn
    pure (if b then [fieldMsg name ("should be at least " ++ pyStrOf mn)] else [])

/-- The `max` inclusive upper bound for numeric values. -/
def maxBoundErrs (fr : List (String × Value)) (n : Int) (name : String) :
    Except PyErr (List String) :=
  match (dictLookup fr "max").getD .null with
  | .null => .ok []
  | mx => do
    let b ← pyGtIntV n mx
    pure (if b then [fieldMsg name ("should be at most " ++ pyStrOf mx)] else [])

/-- The `threshold` as a second generic lower bound for numeric values. -/
def thresholdBoundErrs (fr : List (String × Value)) (n : Int) (name : String) :
    Except PyErr (List String) :=
  match (dictLookup fr "threshold").getD .null with
  | .null => .ok []
  | th => do
    let b ← pyLtIntV n th
    pure (if b then [fieldMsg name ("should be at least " ++ pyStrOf th)] else [])

/-- All three numeric bound checks in source order. -/
def numberErrs (fr : List (String × Value)) (n : Int) (name : String) :
    Except PyErr (List String) := do
  let a ← minBoundErrs fr n name
  let b ← maxBoundErrs fr n name
  let c ← thresholdBoundErrs fr n name
  pure (a ++ b ++ c)

/-- The confidence-level ordinal table `{low: 1, medium: 2, high: 3}`. -/
def confidenceRank (s : String) : Nat :=
  if s = "low" then 1 else if s = "medium" then 2 else if s = "high" then 3 else 0

/-- `confidence_levels.get(x, 0)`: rank of a string, 0 for other hashable
values, TypeError for unhashable ones (lists, dicts). -/
def rankOf (v : Value) : Except PyErr Nat :=
  match v with
  | .list _ => .error .typeError
  | .dict _ => .error .typeError
  | .str s => .ok (confidenceRank s)
  | _ => .ok 0

/-- Python `str.endswith`. -/
def strEndsWith (s suffix : String) : Bool :=
  suffix.data.isSuffixOf s.data

/-- The ordinal threshold check for confidence-named fields. -/
def confErrs (fr : List (String × Value)) (fv : Value) (name : String) :
    Except PyErr (List String) :=
  if strEndsWith name "confidence" then
    match (dictLookup fr "threshold").getD .null with
    | .null => .ok []
    | th => do
      let req ← rankOf th
      let act ← rankOf fv
      pure (if act < req then [fieldMsg name ("should be at least '" ++ pyStrOf th ++ "'")] else [])
  else .ok []

/-- `validate_field_structure(field_value, field_rules, field_name)`:
validate one value against one field rule, returning `(ok, errors)`;
Python `None` is the absent-value sentinel. -/
def validate_field_structure (field_value : Value) (field_rules : Value)
    (field_name : String) : Except PyErr (Bool × List String) :=
  match field_rules with
  | .dict fr =>
    if pyTruthy ((dictLookup fr "required").getD (.bool false)) && isNull field_value then
      .ok (false, [msgRequired field_name])
    else if !pyTruthy ((dictLookup fr "required").getD (.bool false)) && isNull field_value then
      .ok (true, [])
    else do
      let ft := (dictLookup fr "type").getD .null
      let tErrs := typeErrs fr field_value field_name
      let sErrs ←
        if pyEqStr ft "string" then
          match field_value with
          | .str v => do
            let a ← minLengthErrs fr v field_name
            let b ← patternErrs fr v field_name
            let c ← enumErrs fr v field_name
            pure (a ++ b ++ c)
          | _ => pure []
        else pure []
      let aErrs ←
        if pyEqStr ft "array" then
          match field_value with
          | .list xs => arrayErrs fr xs field_name
          | _ => pure []
        else pure []
      let nErrs ←
        if pyEqStr ft "number" && isNumV field_value then
          numberErrs fr (numOf field_value) field_name
        else pure []
      let cErrs ← confErrs fr field_value field_name
      let errors := tErrs ++ sErrs ++ aErrs ++ nErrs ++ cErrs
      pure (errors.isEmpty, errors)
  | _ => .error .attributeError

/-! ## The Document Validator: `validate_video_summary` -/

/-- One field's entry in a segment's validation report. -/
structure FieldValidation where
  valid : Bool
  json_field_name : Option String
  errors : List String
deriving Repr, DecidableEq

/-- One segment's entry in the report. -/
structure SegmentValidation where
  segment_index : Nat
  segment_title : Value
  valid : Bool
  field_validations : List (String × FieldValidation)
deriving Repr

/-- The report summary block. -/
structure Summary where
  total_segments : Nat
  valid_segments : Nat
  invalid_segments : Nat
  overall_status : String
deriving Repr, DecidableEq

/-- The validation report.  `error = none` models the absence of the
`"error"` key (only the failure paths add it). -/
structure Report where
  valid : Bool
  error : Option String
  segments_validation : List SegmentValidation
  summary : Summary
deriving Repr

/-- The failure-report shape shared by the short-circuit paths that count
zero segments. -/
def errReport (msg : String) : Report :=
  { valid := false, error := some msg, segments_validation := [],
    summary := { total_segments := 0, valid_segments := 0, invalid_segments := 0,
                 overall_status := "FAIL" } }

/-- Outcome of `json.loads(json_data)`: a parse failure or a value. -/
inductive JsonInput where
  | malformed : JsonInput
  | parsed (v : Value) : JsonInput

/-- Outcome of locating and loading the YAML rules file. -/
inductive RulesOutcome where
  | notFound : RulesOutcome
  | loadError (msg : String) : RulesOutcome
  | loaded (v : Value) : RulesOutcome

/-- The fixed mapping from canonical (YAML) field names to the ordered
list of acceptable literal JSON keys. -/
def field_name_mapping : List (String × List String) :=
  [("segment_title", ["Segment Title", "segment_title"]),
   ("timestamps", ["Timestamps", "timestamps"]),
   ("editorial_subjects", ["Editorial subjects", "editorial_subjects"]),
   ("visual_subjects", ["Visual Subjects", "visual_subjects"]),
   ("names", ["Names", "names"]),
   ("location", ["Location", "location"])]

/-- The alias-resolution loop: the first alias present in the segment wins;
produces the literal key found (else `none`) and the value (absent →
`None`). -/
def resolveField (seg : List (String × Value)) : List String → Option String × Value
  | [] => (none, .null)
  | n :: rest =>
    match dictLookup seg n with
    | some v => (some n, v)
    | none => resolveField seg rest

/-- `"k" in field_rule` for the nested-rule guards.  By this point
`validate_field_structure` has already raised unless `field_rule` is a
dict, so only the dict case is reachable. -/
def pyContainsKey (v : Value) (k : String) : Bool :=
  match v with
  | .dict xs => (dictLookup xs k).isSome
  | _ => false

/-- Validate one canonical field of one segment: resolve the alias, fetch
the field rule (missing rule → empty dict), run the Field Validator, then
merge in the nested segment-level `confidence`/`score` checks. -/
def processField (seg : List (String × Value)) (field_rules : Value)
    (fname : String) (aliases : List String) : Except PyErr FieldValidation := do
  let (json_field_name, field_value) := resolveField seg aliases
  let field_rule ← pyGetD field_rules fname (.dict [])
  let (valid0, errors0) ← validate_field_structure field_value field_rule fname
  let confidence_value := (dictLookup seg "confidence").getD .null
  let score_value := (dictLookup seg "score").getD .null
  let (valid1, errors1) ←
    if !isNull confidence_value && pyContainsKey field_rule "confidence" then do
      let confidence_rule ← pyIndexS field_rule "confidence"
      let (cv, ce) ← validate_field_structure confidence_value confidence_rule
        (fname ++ "_confidence")
      pure (valid0 && cv, errors0 ++ ce)
    else pure (valid0, errors0)
  let (valid2, errors2) ←
    if !isNull score_value && pyContainsKey field_rule "score" then do
      let score_rule ← pyIndexS field_rule "score"
      let (sv, se) ← validate_field_structure score_value score_rule (fname ++ "_score")
      pure (valid1 && sv, errors1 ++ se)
    else pure (valid1, errors1)
  pure { valid := valid2, json_field_name := json_field_name, errors := errors2 }

/-- Validate every canonical field of one segment, in canonical order. -/
def processFields (seg : List (String × Value)) (field_rules : Value) :
    List (String × List String) → Except PyErr (List (String × FieldValidation))
  | [] => .ok []
  | (fname, aliases) :: rest => do
    let fv ← processField seg field_rules fname aliases
    let others ← processFields seg field_rules rest
    pure ((fname, fv) :: others)

/-- Validate one segment: record its title, fetch `item_schema.fields`,
and validate every canonical field.  A segment is valid iff all its field
validations are valid. -/
def processSegment (segments_rules : Value) (i : Nat) (segment : Value) :
    Except PyErr SegmentValidation := do
  let inner ← pyGetD segment "segment_title" (.str "Unknown")
  let title ← pyGetD segment "Segment Title" inner
  let item_schema ← pyIndexS segments_rules "item_schema"
  let field_rules ← pyIndexS item_schema "fields"
  let seg ← (match segment with
    | .dict xs => Except.ok xs
    | _ => Except.error PyErr.attributeError)
  let fvs ← processFields seg field_rules field_name_mapping
  pure { segment_index := i, segment_title := title,
         valid := fvs.all (fun p => p.2.valid), field_validations := fvs }

/-- Validate a list of segments, numbering them from `i`. -/
def processSegments (segments_rules : Value) (i : Nat) :
    List Value → Except PyErr (List SegmentValidation)
  | [] => .ok []
  | s :: rest => do
    let sv ← processSegment segments_rules i s
    let rest' ← processSegments segments_rules (i + 1) rest
    pure (sv :: rest')

/-- The rule-set structural access
`rules["validation"]["structure"]["fields"]["segments"]` (performed
outside any `try` block, so a missing key raises). -/
def segmentsRulesOf (rules : Value) : Except PyErr Value := do
  let v1 ← pyIndexS rules "validation"
  let v2 ← pyIndexS v1 "structure"
  let v3 ← pyIndexS v2 "fields"
  pyIndexS v3 "segments"

/-- `validate_video_summary(json_data, yaml_rules_path)`: the whole
validator.  The JSON-parse and YAML-load collaborators are supplied as
already-resolved outcomes; `Except.error` models an uncaught Python
exception escaping to the caller. -/
def validate_video_summary (jsonData : JsonInput) (yaml_rules_path : String)
    (rulesSrc : RulesOutcome) : Except PyErr Report :=
  match jsonData with
  | .malformed => .ok (errReport "Invalid JSON format")
  | .parsed data =>
    match rulesSrc with
    | .notFound => .ok (errReport ("YAML rules file not found: " ++ yaml_rules_path))
    | .loadError e => .ok (errReport ("Error loading YAML rules: " ++ e))
    | .loaded rules => do
      let segments_rules ← segmentsRulesOf rules
      let hasSegs ← pyContains data (.str "segments")
      if !hasSegs then
        pure (errReport "Required field 'segments' is missing")
      else do
        let segsV ← pyIndexS data "segments"
        match segsV with
        | .list segs => do
          let min_segments ← pyGetD segments_rules "min_items" (.int 0)
          let short ← pyLtIntV (segs.length : Int) min_segments
          if short then
            pure { valid := false,
                   error := some ("There should be at least " ++ pyStrOf min_segments
                     ++ " segments"),
                   segments_validation := [],
                   summary := { total_segments := segs.length, valid_segments := 0,
                                invalid_segments := segs.length, overall_status := "FAIL" } }
          else do
            let svs ← processSegments segments_rules 0 segs
            let valid_segments := (svs.filter (fun s => s.valid)).length
            pure { valid := valid_segments == segs.length,
                   error := none,
                   segments_validation := svs,
                   summary := { total_segments := segs.length,
                                valid_segments := valid_segments,
                                invalid_segments := segs.length - valid_segments,
                                overall_status :=
                                  if valid_segments == segs.length then "PASS" else "FAIL" } }
        | _ => pure (errReport "Field 'segments' should be an array")

/-! ## Claims -/

/-- C3: for every field rule with `required=true` and every field name,
an absent value (the `None` sentinel) makes the Field Validator return
immediately with `ok=false` and exactly the single error
`Required field '<name>' is missing`, evaluating no other rule
attribute. -/
theorem c3_required_missing (fr : List (String × Value)) (name : String)
    (h : dictLookup fr "required" = some (.bool true)) :
    validate_field_structure .null (.dict fr) name =
      .ok (false, ["Required field '" ++ name ++ "' is missing"]) := by
  simp [validate_field_structure, h, pyTruthy, isNull, msgRequired]

/-- Witness for C3: a concrete required rule (carrying additional
attributes that are not consulted) and the field name `names`. -/
theorem c3_witness :
    dictLookup [("required", Value.bool true), ("type", Value.str "string"),
        ("pattern", Value.str "^[A-Z]")] "required" = some (Value.bool true) ∧
    validate_field_structure .null
        (.dict [("required", Value.bool true), ("type", Value.str "string"),
          ("pattern", Value.str "^[A-Z]")]) "names" =
      .ok (false, ["Required field 'names' is missing"]) :=
  ⟨rfl, c3_required_missing
    [("required", Value.bool true), ("type", Value.str "string"),
      ("pattern", Value.str "^[A-Z]")] "names" rfl⟩

/-- C4: for every field rule with `required` absent or `required=false`,
an absent value makes the Field Validator return `ok=true` with no
errors, regardless of any other attribute present in the rule. -/
theorem c4_optional_absent (fr : List (String × Value)) (name : String)
    (h : dictLookup fr "required" = none ∨ dictLookup fr "required" = some (.bool false)) :
    validate_field_structure .null (.dict fr) name = .ok (true, []) := by
  rcases h with h | h <;> simp [validate_field_structure, h, pyTruthy, isNull]

/-- Witness for C4: a concrete rule with type, min_length, pattern, enum,
bounds and threshold attributes but no `required` key, at the absent
value. -/
theorem c4_witness :
    (dictLookup [("type", Value.str "string"), ("min_length", Value.int 5),
        ("pattern", Value.str "^[A-Z]"), ("enum", Value.list [Value.str "a"]),
        ("min", Value.int 0), ("max", Value.int 9), ("threshold", Value.str "high")]
        "required" = none ∨
      dictLookup [("type", Value.str "string"), ("min_length", Value.int 5),
        ("pattern", Value.str "^[A-Z]"), ("enum", Value.list [Value.str "a"]),
        ("min", Value.int 0), ("max", Value.int 9), ("threshold", Value.str "high")]
        "required" = some (Value.bool false)) ∧
    validate_field_structure .null
        (.dict [("type", Value.str "string"), ("min_length", Value.int 5),
          ("pattern", Value.str "^[A-Z]"), ("enum", Value.list [Value.str "a"]),
          ("min", Value.int 0), ("max", Value.int 9), ("threshold", Value.str "high")])
        "location" = .ok (true, []) :=
  ⟨Or.inl rfl, c4_optional_absent _ "location" (Or.inl rfl)⟩

/-- C10: a segment's reported `segment_title` is the literal string
`Unknown` when neither the key `Segment Title` nor `segment_title` is
present, and the `Segment Title` key's value takes precedence whenever it
is present. -/
theorem c10_segment_title (sr : Value) (i : Nat) (xs : List (String × Value))
    (sv : SegmentValidation)
    (h : processSegment sr i (.dict xs) = .ok sv) :
    ((dictLookup xs "Segment Title" = none ∧ dictLookup xs "segment_title" = none) →
        sv.segment_title = .str "Unknown") ∧
    (∀ v, dictLookup xs "Segment Title" = some v → sv.segment_title = v) := by
  simp only [processSegment, pyGetD, bind, Except.bind, pure, Except.pure] at h
  split at h
  · cases h
  split at h
  · cases h
  split at h
  · cases h
  injection h with h
  subst h
  refine ⟨fun hb => ?_, fun v hv => ?_⟩
  · simp [hb.1, hb.2]
  · simp [hv]

/-- Witness for C10: a segment without either title key reports
`Unknown`; a segment with both keys reports the `Segment Title` value. -/
theorem c10_witness :
    (∃ sv, processSegment (Value.dict [("item_schema", Value.dict [("fields", Value.dict [])])])
        0 (Value.dict [("confidence", Value.str "high")]) = Except.ok sv ∧
        sv.segment_title = Value.str "Unknown") ∧
    (∃ sv, processSegment (Value.dict [("item_schema", Value.dict [("fields", Value.dict [])])])
        1 (Value.dict [("segment_title", Value.str "lower"),
            ("Segment Title", Value.str "Upper")]) = Except.ok sv ∧
        sv.segment_title = Value.str "Upper") := by
  constructor
  · have h : processSegment
        (Value.dict [("item_schema", Value.dict [("fields", Value.dict [])])]) 0
        (Value.dict [("confidence", Value.str "high")]) =
        Except.ok (SegmentValidation.mk 0 (Value.str "Unknown") true
          [("segment_title", FieldValidation.mk true none []),
           ("timestamps", FieldValidation.mk true none []),
           ("editorial_subjects", FieldValidation.mk true none []),
           ("visual_subjects", FieldValidation.mk true none []),
           ("names", FieldValidation.mk true none []),
           ("location", FieldValidation.mk true none [])]) := rfl
    exact ⟨_, h, (c10_segment_title _ 0 _ _ h).1 ⟨rfl, rfl⟩⟩
  · have h : processSegment
        (Value.dict [("item_schema", Value.dict [("fields", Value.dict [])])]) 1
        (Value.dict [("segment_title", Value.str "lower"),
          ("Segment Title", Value.str "Upper")]) =
        Except.ok (SegmentValidation.mk 1 (Value.str "Upper") true
          [("segment_title", FieldValidation.mk true (some "Segment Title") []),
           ("timestamps", FieldValidation.mk true none []),
           ("editorial_subjects", FieldValidation.mk true none []),
           ("visual_subjects", FieldValidation.mk true none []),
           ("names", FieldValidation.mk true none []),
           ("location", FieldValidation.mk true none [])]) := rfl
    exact ⟨_, h, (c10_segment_title _ 1 _ _ h).2 _ rfl⟩

/-- C7: when the document's segment list is shorter than the segments
rule's `min_items`, the validator short-circuits with no per-segment
processing: `valid=false`, error `There should be at least N segments`,
an empty `segments_validation`, and a summary counting every segment as
invalid with `overall_status=FAIL`. -/
theorem c7_min_items_short_circuit (docRest : List (String × Value)) (segs : List Value)
    (rules : Value) (path : String) (sr : List (String × Value)) (n : Int)
    (hdoc : dictLookup docRest "segments" = some (.list segs))
    (hchain : segmentsRulesOf rules = .ok (.dict sr))
    (hmin : dictLookup sr "min_items" = some (.int n))
    (hshort : (segs.length : Int) < n) :
    validate_video_summary (.parsed (.dict docRest)) path (.loaded rules) =
      .ok { valid := false,
            error := some ("There should be at least " ++ toString n ++ " segments"),
            segments_validation := [],
            summary := { total_segments := segs.length, valid_segments := 0,
                         invalid_segments := segs.length, overall_status := "FAIL" } } := by
  simp [validate_video_summary, hchain, hdoc, hmin, hshort, pyContains, pyIndexS, pyGetD,
    pyLtIntV, pyStrOf, pyReprOf, bind, Except.bind, pure, Except.pure]

/-- Witness for C7: end-to-end scenario A, document `{"segments": []}`
against `segments.min_items = 1`. -/
theorem c7_witness :
    ((0 : Int) < 1) ∧
    validate_video_summary (.parsed (.dict [("segments", .list [])])) "rules.yaml"
        (.loaded (.dict [("validation", .dict [("structure", .dict [("fields",
          .dict [("segments", .dict [("min_items", .int 1)])])])])])) =
      .ok { valid := false,
            error := some "There should be at least 1 segments",
            segments_validation := [],
            summary := { total_segments := 0, valid_segments := 0,
                         invalid_segments := 0, overall_status := "FAIL" } } :=
  ⟨by decide, c7_min_items_short_circuit [("segments", .list [])] [] _ "rules.yaml"
    [("min_items", .int 1)] 1 rfl rfl rfl (by decide)⟩

/-- Every successfully returned report is either a short-circuit failure
report (error string present, `valid=false`, status `FAIL`, zero valid
segments) or a full-run report (no error key; validity and status both
computed from the valid/total segment counts). -/
theorem validate_shape (j : JsonInput) (path : String) (r : RulesOutcome) (rep : Report)
    (h : validate_video_summary j path r = .ok rep) :
    (rep.error.isSome ∧ rep.valid = false ∧ rep.summary.overall_status = "FAIL" ∧
      rep.summary.valid_segments = 0) ∨
    (rep.error = none ∧
      rep.valid = (rep.summary.valid_segments == rep.summary.total_segments) ∧
      rep.summary.overall_status =
        (if rep.summary.valid_segments == rep.summary.total_segments then "PASS" else "FAIL")) := by
  cases j with
  | malformed =>
    simp only [validate_video_summary] at h
    injection h with h
    subst h
    exact Or.inl ⟨rfl, rfl, rfl, rfl⟩
  | parsed data =>
    cases r with
    | notFound =>
      simp only [validate_video_summary] at h
      injection h with h
      subst h
      exact Or.inl ⟨rfl, rfl, rfl, rfl⟩
    | loadError e =>
      simp only [validate_video_summary] at h
      injection h with h
      subst h
      exact Or.inl ⟨rfl, rfl, rfl, rfl⟩
    | loaded rules =>
      simp only [validate_video_summary, bind, Except.bind, pure, Except.pure] at h
      split at h
      · cases h
      split at h
      · cases h
      split at h
      · injection h with h
        subst h
        exact Or.inl ⟨rfl, rfl, rfl, rfl⟩
      split at h
      · cases h
      split at h
      -- list branch
      · split at h
        · cases h
        split at h
        · cases h
        split at h
        · injection h with h
          subst h
          exact Or.inl ⟨rfl, rfl, rfl, rfl⟩
        split at h
        · cases h
        injection h with h
        subst h
        exact Or.inr ⟨rfl, rfl, rfl⟩
      -- non-list branch
      · injection h with h
        subst h
        exact Or.inl ⟨rfl, rfl, rfl, rfl⟩

/-- C2 (amended): for reports produced by the full per-segment path (no
`error` key) the three conditions — `overall_status = "PASS"`,
`valid_segments = total_segments`, and `valid = true` — are pairwise
equivalent; reports from the structural short-circuit paths instead
always have `valid=false` and status `FAIL` (there the count equality can
hold vacuously while `valid` is false). -/
theorem c2_amended (j : JsonInput) (path : String) (r : RulesOutcome) (rep : Report)
    (h : validate_video_summary j path r = .ok rep) :
    (rep.error = none →
      ((rep.summary.overall_status = "PASS" ↔
          rep.summary.valid_segments = rep.summary.total_segments) ∧
       (rep.valid = true ↔ rep.summary.valid_segments = rep.summary.total_segments))) ∧
    (rep.error.isSome → rep.valid = false ∧ rep.summary.overall_status = "FAIL") := by
  rcases validate_shape j path r rep h with ⟨hs, hv, hst, _⟩ | ⟨he, hv, hst⟩
  · refine ⟨fun hnone => ?_, fun _ => ⟨hv, hst⟩⟩
    rw [hnone] at hs
    cases hs
  · refine ⟨fun _ => ⟨?_, ?_⟩, fun hsome => ?_⟩
    · constructor
      · intro hp
        rw [hst] at hp
        by_cases hb : (rep.summary.valid_segments == rep.summary.total_segments) = true
        · exact beq_iff_eq.mp hb
        · rw [if_neg hb] at hp
          exact absurd hp (by decide)
      · intro hvt
        rw [hst, if_pos (beq_iff_eq.mpr hvt)]
    · rw [hv]
      constructor
      · intro hb
        exact beq_iff_eq.mp hb
      · intro hvt
        exact beq_iff_eq.mpr hvt
    · rw [he] at hsome
      cases hsome

/-- Counterexample to C2 as stated: the invalid-JSON short-circuit report
has `valid_segments = total_segments` (both zero) yet `valid=false` and
status `FAIL`, so the claimed equivalence fails on a short-circuit
report. -/
theorem c2_counterexample :
    ∃ rep, validate_video_summary .malformed "rules.yaml" (.loaded (.dict [])) = .ok rep ∧
      rep.summary.valid_segments = rep.summary.total_segments ∧ rep.valid = false ∧
      rep.summary.overall_status = "FAIL" ∧
      ¬ (rep.valid = true ↔ rep.summary.valid_segments = rep.summary.total_segments) :=
  ⟨errReport "Invalid JSON format", rfl, rfl, rfl, rfl, by decide⟩

/-- Witness for C2 (amended): a full run over an empty segment list with
a rule set without `min_items`. -/
theorem c2_witness :
    ∃ rep, validate_video_summary (.parsed (.dict [("segments", .list [])])) "rules.yaml"
        (.loaded (.dict [("validation", .dict [("structure", .dict [("fields",
          .dict [("segments", .dict [])])])])])) = .ok rep ∧
      ((rep.error = none →
        ((rep.summary.overall_status = "PASS" ↔
            rep.summary.valid_segments = rep.summary.total_segments) ∧
         (rep.valid = true ↔ rep.summary.valid_segments = rep.summary.total_segments))) ∧
       (rep.error.isSome → rep.valid = false ∧ rep.summary.overall_status = "FAIL")) := by
  have h : validate_video_summary (.parsed (.dict [("segments", .list [])])) "rules.yaml"
      (.loaded (.dict [("validation", .dict [("structure", .dict [("fields",
        .dict [("segments", .dict [])])])])])) =
      .ok (Report.mk true none [] (Summary.mk 0 0 0 "PASS")) := rfl
  exact ⟨_, h, c2_amended _ _ _ _ h⟩

/-- The reported `json_field_name` of a field is exactly the first
component of the alias resolution. -/
theorem processField_json_name (seg : List (String × Value)) (frv : Value)
    (fname : String) (aliases : List String) (fv : FieldValidation)
    (h : processField seg frv fname aliases = .ok fv) :
    fv.json_field_name = (resolveField seg aliases).1 := by
  rcases hres : resolveField seg aliases with ⟨jn, w⟩
  simp only [processField, hres, bind, Except.bind, pure, Except.pure] at h
  iterate 14 (all_goals try split at h)
  all_goals try cases h
  all_goals rfl

/-- Modelled from the spec's words ("first match wins" over the ordered
alias list) for comparison with the code's `resolveField` loop. -/
def firstAlias (xs : List (String × Value)) (aliases : List String) : Option String :=
  aliases.find? (fun a => (dictLookup xs a).isSome)

/-- The code's resolution loop agrees with the spec-side `firstAlias`:
the first alias present wins and the value is absent when none match. -/
theorem resolveField_spec (xs : List (String × Value)) (aliases : List String) :
    resolveField xs aliases =
      (firstAlias xs aliases,
        (firstAlias xs aliases).elim Value.null (fun k => (dictLookup xs k).getD .null)) := by
  induction aliases with
  | nil => rfl
  | cons n rest ih =>
    simp only [resolveField, firstAlias, List.find?]
    cases hn : dictLookup xs n with
    | some v => simp [hn]
    | none => simpa [hn, firstAlias] using ih

/-- Every canonical field requested of `processFields` produces an entry
backed by one `processField` call. -/
theorem processFields_mem (seg : List (String × Value)) (frv : Value)
    (L : List (String × List String)) :
    ∀ (out : List (String × FieldValidation)), processFields seg frv L = .ok out →
      ∀ fname aliases, (fname, aliases) ∈ L →
        ∃ fv, (fname, fv) ∈ out ∧ processField seg frv fname aliases = .ok fv := by
  induction L with
  | nil =>
    intro out h fname aliases hmem
    cases hmem
  | cons p rest ih =>
    obtain ⟨pn, pa⟩ := p
    intro out h fname aliases hmem
    rcases hpf : processField seg frv pn pa with e | fv1
    · simp only [processFields, hpf, bind, Except.bind] at h
      cases h
    rcases hpr : processFields seg frv rest with e | out1
    · simp only [processFields, hpf, hpr, bind, Except.bind] at h
      cases h
    simp only [processFields, hpf, hpr, bind, Except.bind, pure, Except.pure] at h
    injection h with h
    subst h
    rcases List.mem_cons.mp hmem with heq | hm
    · cases heq
      exact ⟨fv1, List.mem_cons_self _ _, hpf⟩
    · obtain ⟨fv, hfm, hfp⟩ := ih out1 hpr fname aliases hm
      exact ⟨fv, List.mem_cons_of_mem _ hfm, hfp⟩

/-- C8: the Document Validator resolves each canonical field by scanning
the ordered alias list and taking the first alias present in the segment
(first match wins, value absent when none match), and records that
literal key as the field's `json_field_name` in the report. -/
theorem c8_alias_resolution :
    (∀ (xs : List (String × Value)) (aliases : List String),
        resolveField xs aliases =
          (firstAlias xs aliases,
            (firstAlias xs aliases).elim Value.null (fun k => (dictLookup xs k).getD .null))) ∧
    (∀ (sr : Value) (i : Nat) (xs : List (String × Value)) (sv : SegmentValidation)
        (fname : String) (aliases : List String),
        processSegment sr i (.dict xs) = .ok sv →
        (fname, aliases) ∈ field_name_mapping →
        ∃ fv, (fname, fv) ∈ sv.field_validations ∧
          fv.json_field_name = firstAlias xs aliases) := by
  refine ⟨resolveField_spec, ?_⟩
  intro sr i xs sv fname aliases h hmem
  rcases hi : pyIndexS sr "item_schema" with e | isch
  · simp only [processSegment, hi, pyGetD, bind, Except.bind] at h
    cases h
  rcases hf : pyIndexS isch "fields" with e | fl
  · simp only [processSegment, hi, hf, pyGetD, bind, Except.bind] at h
    cases h
  rcases hp : processFields xs fl field_name_mapping with e | fvs
  · simp only [processSegment, hi, hf, hp, pyGetD, bind, Except.bind] at h
    cases h
  simp only [processSegment, hi, hf, hp, pyGetD, bind, Except.bind, pure, Except.pure] at h
  injection h with h
  subst h
  obtain ⟨fv, hfm, hfp⟩ := processFields_mem xs fl field_name_mapping fvs hp fname aliases hmem
  refine ⟨fv, hfm, ?_⟩
  rw [processField_json_name xs fl fname aliases fv hfp, resolveField_spec]

/-- Witness for C8: end-to-end scenario C fragment, a segment with key
`Segment Title` reporting `json_field_name = some "Segment Title"`. -/
theorem c8_witness :
    ∃ sv, processSegment
        (Value.dict [("item_schema", Value.dict [("fields", Value.dict
          [("segment_title", Value.dict [("type", Value.str "string"),
              ("required", Value.bool true)]),
           ("names", Value.dict [("type", Value.str "array"),
              ("min_items", Value.int 1)])])])]) 0
        (Value.dict [("Segment Title", Value.str "Intro"),
          ("Names", Value.list [Value.str "A", Value.str "B"])]) = Except.ok sv ∧
      ∃ fv, ("segment_title", fv) ∈ sv.field_validations ∧
        fv.json_field_name = some "Segment Title" := by
  have h : processSegment
      (Value.dict [("item_schema", Value.dict [("fields", Value.dict
        [("segment_title", Value.dict [("type", Value.str "string"),
            ("required", Value.bool true)]),
         ("names", Value.dict [("type", Value.str "array"),
            ("min_items", Value.int 1)])])])]) 0
      (Value.dict [("Segment Title", Value.str "Intro"),
        ("Names", Value.list [Value.str "A", Value.str "B"])]) =
      Except.ok (SegmentValidation.mk 0 (Value.str "Intro") true
        [("segment_title", FieldValidation.mk true (some "Segment Title") []),
         ("timestamps", FieldValidation.mk true none []),
         ("editorial_subjects", FieldValidation.mk true none []),
         ("visual_subjects", FieldValidation.mk true none []),
         ("names", FieldValidation.mk true (some "Names") []),
         ("location", FieldValidation.mk true none [])]) := rfl
  obtain ⟨fv, hm, hj⟩ := c8_alias_resolution.2 _ 0 _ _ "segment_title"
    ["Segment Title", "segment_title"] h (by simp [field_name_mapping])
  exact ⟨_, h, fv, hm, hj.trans rfl⟩

/-- A sequence headed by the never-matching regex matches no prefix. -/
theorem matchPrefix_seqNomatch (r : Regex) : ∀ l, matchPrefix (.seq .nomatch r) l = false := by
  intro l
  induction l with
  | nil => rfl
  | cons c rest ih =>
    simp [matchPrefix, Regex.nullable, Regex.deriv, ih]

/-- C6: the pattern check uses match-from-start semantics (`re.match`):
a rule with `pattern="^[A-Z]"` rejects every string whose only uppercase
letter occurs after position 0 (the first character not uppercase, some
later character uppercase), producing exactly the pattern error. -/
theorem c6_pattern_match_from_start (s : String) (c0 : Char) (i : Nat) (ci : Char)
    (h0 : s.data[0]? = some c0) (hc0 : ('A' ≤ c0 ∧ c0 ≤ 'Z') → False)
    (hi : 0 < i) (hgi : s.data[i]? = some ci) (hci : 'A' ≤ ci ∧ ci ≤ 'Z') :
    validate_field_structure (.str s) (.dict [("type", .str "string"),
      ("pattern", .str "^[A-Z]")]) "f" =
      .ok (false, ["Field 'f' does not match required pattern"]) := by
  have hb : (decide ('A' ≤ c0) && decide (c0 ≤ 'Z')) = false := by
    by_cases h1 : 'A' ≤ c0
    · by_cases h2 : c0 ≤ 'Z'
      · exact absurd ⟨h1, h2⟩ hc0
      · simp [h2]
    · simp [h1]
  have hpp : parsePattern "^[A-Z]" = some (Regex.seq (Regex.cls false [('A', 'Z')]) Regex.eps) := rfl
  rcases hd : s.data with _ | ⟨c, rest⟩
  · rw [hd] at h0
    cases h0
  · rw [hd] at h0
    simp only [List.getElem?_cons_zero, Option.some.injEq] at h0
    subst h0
    have hm : matchPrefix (Regex.seq (Regex.cls false [('A', 'Z')]) Regex.eps) (c :: rest)
        = false := by
      simp [matchPrefix, Regex.nullable, Regex.deriv, clsMatches, hb, matchPrefix_seqNomatch]
    simp [validate_field_structure, minLengthErrs, patternErrs, enumErrs, typeErrs,
      pyTruthy, isNull, pyEqStr, isStr, dictLookup, hpp, hd, hm, bind, Except.bind,
      pure, Except.pure, fieldMsg, strEndsWith, confErrs]

/-- Witness for C6: the string `aB` has its only uppercase letter at
position 1 and is rejected by `pattern="^[A-Z]"`. -/
theorem c6_witness :
    "aB".data[0]? = some 'a' ∧ (0 : Nat) < 1 ∧ "aB".data[1]? = some 'B' ∧
    ('A' ≤ 'B' ∧ 'B' ≤ 'Z') ∧
    validate_field_structure (.str "aB") (.dict [("type", .str "string"),
      ("pattern", .str "^[A-Z]")]) "f" =
      .ok (false, ["Field 'f' does not match required pattern"]) :=
  ⟨rfl, by decide, rfl, by decide,
    c6_pattern_match_from_start "aB" 'a' 1 'B' rfl (by decide) (by decide) rfl (by decide)⟩

/-- C9: when the segment carries a top-level `confidence` value and the
field rule declares a nested `confidence` sub-rule, that shared value is
validated against the sub-rule under the synthesized name
`<field>_confidence`, its errors appended to the field's error list and
its outcome ANDed into the field's validity; and symmetrically for
`score` under `<field>_score`. -/
theorem c9_nested_confidence_score :
    (∀ (seg : List (String × Value)) (fl : List (String × Value)) (fname : String)
        (aliases : List String) (fr : List (String × Value)) (cv cr : Value)
        (b cb : Bool) (es ces : List String),
        dictLookup fl fname = some (.dict fr) →
        dictLookup seg "confidence" = some cv → isNull cv = false →
        dictLookup fr "confidence" = some cr →
        ((dictLookup seg "score").getD .null = .null ∨ dictLookup fr "score" = none) →
        validate_field_structure (resolveField seg aliases).2 (.dict fr) fname = .ok (b, es) →
        validate_field_structure cv cr (fname ++ "_confidence") = .ok (cb, ces) →
        processField seg (.dict fl) fname aliases =
          .ok { valid := b && cb, json_field_name := (resolveField seg aliases).1,
                errors := es ++ ces }) ∧
    (∀ (seg : List (String × Value)) (fl : List (String × Value)) (fname : String)
        (aliases : List String) (fr : List (String × Value)) (sv sr : Value)
        (b sb : Bool) (es ses : List String),
        dictLookup fl fname = some (.dict fr) →
        dictLookup seg "score" = some sv → isNull sv = false →
        dictLookup fr "score" = some sr →
        ((dictLookup seg "confidence").getD .null = .null ∨
          dictLookup fr "confidence" = none) →
        validate_field_structure (resolveField seg aliases).2 (.dict fr) fname = .ok (b, es) →
        validate_field_structure sv sr (fname ++ "_score") = .ok (sb, ses) →
        processField seg (.dict fl) fname aliases =
          .ok { valid := b && sb, json_field_name := (resolveField seg aliases).1,
                errors := es ++ ses }) := by
  constructor
  · intro seg fl fname aliases fr cv cr b cb es ces hrule hcv hcvn hcr hscore hbase hconf
    rcases hres : resolveField seg aliases with ⟨jn, w⟩
    rw [hres] at hbase
    rcases hscore with hs | hs <;>
      simp [processField, hres, hrule, hcv, hcvn, hcr, hbase, hconf, hs, pyGetD,
        pyContainsKey, pyIndexS, bind, Except.bind, pure, Except.pure] <;>
      (intro hx; simp [isNull] at hx)
  · intro seg fl fname aliases fr sv sr b sb es ses hrule hsv hsvn hsr hconfg hbase hsc
    rcases hres : resolveField seg aliases with ⟨jn, w⟩
    rw [hres] at hbase
    rcases hconfg with hs | hs <;>
      simp [processField, hres, hrule, hsv, hsvn, hsr, hbase, hsc, hs, pyGetD,
        pyContainsKey, pyIndexS, bind, Except.bind, pure, Except.pure] <;>
      (intro hx; simp [isNull] at hx)

/-- Witness for C9: end-to-end scenario D, segment confidence `low`
against a `names` rule with nested `confidence.threshold="high"`. -/
theorem c9_witness :
    processField [("Names", Value.list [Value.str "x"]), ("confidence", Value.str "low")]
        (Value.dict [("names", Value.dict [("type", Value.str "array"),
          ("confidence", Value.dict [("threshold", Value.str "high")])])])
        "names" ["Names", "names"] =
      Except.ok (FieldValidation.mk false (some "Names")
        ["Field 'names_confidence' should be at least 'high'"]) := by
  have h := c9_nested_confidence_score.1
    [("Names", Value.list [Value.str "x"]), ("confidence", Value.str "low")]
    [("names", Value.dict [("type", Value.str "array"),
      ("confidence", Value.dict [("threshold", Value.str "high")])])]
    "names" ["Names", "names"]
    [("type", Value.str "array"), ("confidence", Value.dict [("threshold", Value.str "high")])]
    (Value.str "low") (Value.dict [("threshold", Value.str "high")])
    true false [] ["Field 'names_confidence' should be at least 'high'"]
    rfl rfl rfl rfl (Or.inr rfl) rfl rfl
  exact h

/-- The confidence-threshold message tail differs from every other tail
the Field Validator can produce: the strings disagree at an index inside
their constant prefixes. -/
theorem confTail_ne (t s c : String) (k : Nat)
    (h1 : k < ("should be at least '".data).length) (h2 : k < (c.data).length)
    (hne : ("should be at least '".data)[k]? ≠ (c.data)[k]?) :
    ("should be at least '" ++ t ++ "'" : String) ≠ c ++ s := by
  intro h
  apply hne
  have hd := congrArg String.data h
  simp only [String.data_append] at hd
  have e1 : (("should be at least '".data ++ t.data) ++ "'".data)[k]? =
      ("should be at least '".data)[k]? := by
    rw [List.getElem?_append_left
        (Nat.lt_of_lt_of_le h1 (by rw [List.length_append]; exact Nat.le_add_right _ _)),
      List.getElem?_append_left h1]
  have e2 : (c.data ++ s.data)[k]? = (c.data)[k]? := List.getElem?_append_left h2
  rw [← e1, hd, e2]

/-- Two field messages with the same name and different tails differ. -/
theorem fieldMsg_ne_of_tail_ne (name a b : String) (h : a ≠ b) :
    fieldMsg name a ≠ fieldMsg name b := by
  intro he
  apply h
  apply String.ext
  have hd := congrArg String.data he
  simp only [fieldMsg, String.data_append] at hd
  exact List.append_cancel_left hd

/-- Every type-check error has one of four fixed shapes. -/
theorem mem_typeErrs (fr : List (String × Value)) (fv : Value) (name : String)
    (x : String) (hx : x ∈ typeErrs fr fv name) :
    x = fieldMsg name "should be a string" ∨ x = fieldMsg name "should be a number" ∨
    x = fieldMsg name "should be an array" ∨ x = fieldMsg name "should be an object" := by
  simp only [typeErrs] at hx
  split at hx
  · left
    simpa using hx
  split at hx
  · right; left
    simpa using hx
  split at hx
  · right; right; left
    simpa using hx
  split at hx
  · right; right; right
    simpa using hx
  · cases hx

/-- Every `min_length` error has the length-message shape. -/
theorem mem_minLengthErrs (fr : List (String × Value)) (v name : String)
    (l : List String) (h : minLengthErrs fr v name = .ok l) (x : String) (hx : x ∈ l) :
    ∃ s, x = fieldMsg name ("length should be at least " ++ s) := by
  simp only [minLengthErrs, bind, Except.bind, pure, Except.pure] at h
  split at h
  · cases h
    cases hx
  · split at h
    · cases h
    · cases h
      split at hx
      · simp only [List.mem_singleton] at hx
        subst hx
        exact ⟨_, rfl⟩
      · cases hx

/-- Every pattern error is the fixed pattern message. -/
theorem mem_patternErrs (fr : List (String × Value)) (v name : String)
    (l : List String) (h : patternErrs fr v name = .ok l) (x : String) (hx : x ∈ l) :
    x = fieldMsg name "does not match required pattern" := by
  simp only [patternErrs] at h
  split at h
  · cases h
    cases hx
  · split at h
    · cases h
      split at hx
      · cases hx
      · simpa using hx
    · cases h
  · cases h

/-- Every enum error has the enum-message shape. -/
theorem mem_enumErrs (fr : List (String × Value)) (v name : String)
    (l : List String) (h : enumErrs fr v name = .ok l) (x : String) (hx : x ∈ l) :
    ∃ s, x = fieldMsg name ("should be one of " ++ s) := by
  simp only [enumErrs, bind, Except.bind, pure, Except.pure] at h
  split at h
  · cases h
    cases hx
  · split at h
    · cases h
    · cases h
      split at hx
      · cases hx
      · simp only [List.mem_singleton] at hx
        subst hx
        exact ⟨_, rfl⟩

/-- C5: for a field whose name ends in `confidence` and whose rule carries
a string threshold, a string value receives the dedicated ordinal error
(message `should be at least '<threshold>'`) exactly when its rank in the
table low=1, medium=2, high=3 (0 for anything else) is strictly below the
threshold's rank — in particular with threshold `medium`, values `medium`
and `high` pass while `low` and every string outside the table fail. -/
theorem c5_confidence_rank_check (fr : List (String × Value)) (name t v : String)
    (ok : Bool) (errs : List String)
    (hname : strEndsWith name "confidence" = true)
    (hth : dictLookup fr "threshold" = some (.str t))
    (h : validate_field_structure (.str v) (.dict fr) name = .ok (ok, errs)) :
    (fieldMsg name ("should be at least '" ++ t ++ "'") ∈ errs ↔
      confidenceRank v < confidenceRank t) := by
  have hconf : confErrs fr (.str v) name =
      .ok (if confidenceRank v < confidenceRank t
        then [fieldMsg name ("should be at least '" ++ t ++ "'")] else []) := by
    simp [confErrs, hname, hth, rankOf, pyStrOf, bind, Except.bind, pure, Except.pure]
  by_cases hfs : pyEqStr ((dictLookup fr "type").getD .null) "string" = true
  · rcases hML : minLengthErrs fr v name with e | la
    · simp [validate_field_structure, hfs, hML, isNull, bind, Except.bind] at h
    rcases hPT : patternErrs fr v name with e | lb
    · simp [validate_field_structure, hfs, hML, hPT, isNull, bind, Except.bind] at h
    rcases hEN : enumErrs fr v name with e | lc
    · simp [validate_field_structure, hfs, hML, hPT, hEN, isNull, bind, Except.bind] at h
    simp [validate_field_structure, hfs, hML, hPT, hEN, hconf, isNull, isStr, isNumV,
      bind, Except.bind, pure, Except.pure] at h
    obtain ⟨h1, h2⟩ := h
    subst h2
    constructor
    · intro hmem
      simp only [List.mem_append] at hmem
      rcases hmem with hm | hm | hm | hm | hm
      · rcases mem_typeErrs fr (Value.str v) name _ hm with he | he | he | he
        · exact absurd he (fieldMsg_ne_of_tail_ne name _ _
            (confTail_ne t "" "should be a string" 11 (by decide) (by decide) (by decide)))
        · exact absurd he (fieldMsg_ne_of_tail_ne name _ _
            (confTail_ne t "" "should be a number" 11 (by decide) (by decide) (by decide)))
        · exact absurd he (fieldMsg_ne_of_tail_ne name _ _
            (confTail_ne t "" "should be an array" 11 (by decide) (by decide) (by decide)))
        · exact absurd he (fieldMsg_ne_of_tail_ne name _ _
            (confTail_ne t "" "should be an object" 11 (by decide) (by decide) (by decide)))
      · obtain ⟨s, hs⟩ := mem_minLengthErrs fr v name la hML _ hm
        exact absurd hs (fieldMsg_ne_of_tail_ne name _ _
          (confTail_ne t s "length should be at least " 0 (by decide) (by decide) (by decide)))
      · have hs := mem_patternErrs fr v name lb hPT _ hm
        exact absurd hs (fieldMsg_ne_of_tail_ne name _ _
          (confTail_ne t "" "does not match required pattern" 0 (by decide) (by decide)
            (by decide)))
      · obtain ⟨s, hs⟩ := mem_enumErrs fr v name lc hEN _ hm
        exact absurd hs (fieldMsg_ne_of_tail_ne name _ _
          (confTail_ne t s "should be one of " 10 (by decide) (by decide) (by decide)))
      · by_cases hc : confidenceRank v < confidenceRank t
        · exact hc
        · rw [if_neg hc] at hm
          cases hm
    · intro hlt
      simp [List.mem_append, hlt]
  · simp [validate_field_structure, hfs, hconf, isNull, isStr, isNumV,
      bind, Except.bind, pure, Except.pure] at h
    obtain ⟨h1, h2⟩ := h
    subst h2
    constructor
    · intro hmem
      simp only [List.mem_append] at hmem
      rcases hmem with hm | hm
      · rcases mem_typeErrs fr (Value.str v) name _ hm with he | he | he | he
        · exact absurd he (fieldMsg_ne_of_tail_ne name _ _
            (confTail_ne t "" "should be a string" 11 (by decide) (by decide) (by decide)))
        · exact absurd he (fieldMsg_ne_of_tail_ne name _ _
            (confTail_ne t "" "should be a number" 11 (by decide) (by decide) (by decide)))
        · exact absurd he (fieldMsg_ne_of_tail_ne name _ _
            (confTail_ne t "" "should be an array" 11 (by decide) (by decide) (by decide)))
        · exact absurd he (fieldMsg_ne_of_tail_ne name _ _
            (confTail_ne t "" "should be an object" 11 (by decide) (by decide) (by decide)))
      · by_cases hc : confidenceRank v < confidenceRank t
        · exact hc
        · rw [if_neg hc] at hm
          cases hm
    · intro hlt
      simp [List.mem_append, hlt]

/-- Witness for C5: a confidence-named field with threshold `medium` at
value `low` (rank 1 < 2) receives exactly the dedicated error. -/
theorem c5_witness :
    validate_field_structure (.str "low") (.dict [("threshold", Value.str "medium")])
        "names_confidence" =
      .ok (false, ["Field 'names_confidence' should be at least 'medium'"]) ∧
    (fieldMsg "names_confidence" ("should be at least '" ++ "medium" ++ "'") ∈
        ["Field 'names_confidence' should be at least 'medium'"] ↔
      confidenceRank "low" < confidenceRank "medium") :=
  ⟨rfl, c5_confidence_rank_check [("threshold", Value.str "medium")] "names_confidence"
    "medium" "low" false ["Field 'names_confidence' should be at least 'medium'"]
    rfl rfl rfl⟩

/-! ## C1: raise behaviour of the whole validator -/

/-- The `<` comparison with an int on the left cannot raise on numeric
values. -/
theorem pyLtIntV_isOk (n : Int) (v : Value) (h : isNumV v = true) :
    ∃ b, pyLtIntV n v = .ok b := by
  cases v <;> first
    | exact ⟨_, rfl⟩
    | simp [isNumV] at h

/-- The `>` comparison with an int on the left cannot raise on numeric
values. -/
theorem pyGtIntV_isOk (n : Int) (v : Value) (h : isNumV v = true) :
    ∃ b, pyGtIntV n v = .ok b := by
  cases v <;> first
    | exact ⟨_, rfl⟩
    | simp [isNumV] at h

/-- The rank-table lookup cannot raise on hashable values. -/
theorem rankOf_isOk (v : Value) (h : (!isListV v && !isDictV v) = true) :
    ∃ r, rankOf v = .ok r := by
  cases v <;> first
    | exact ⟨_, rfl⟩
    | simp [isListV, isDictV] at h

/-- The `min_length` check cannot raise when the bound is absent or
numeric. -/
theorem minLengthErrs_isOk (fr : List (String × Value)) (v name : String)
    (h : (isNull ((dictLookup fr "min_length").getD .null) ||
          isNumV ((dictLookup fr "min_length").getD .null)) = true) :
    ∃ l, minLengthErrs fr v name = .ok l := by
  unfold minLengthErrs
  rcases hml : (dictLookup fr "min_length").getD .null with _ | b | n | s | xs | xs <;>
    first
      | exact ⟨_, rfl⟩
      | (rw [hml] at h; simp [isNull, isNumV] at h)

/-- The pattern check cannot raise when the pattern is absent or a string
in the supported regex fragment. -/
theorem patternErrs_isOk (fr : List (String × Value)) (v name : String)
    (h : (match (dictLookup fr "pattern").getD .null with
          | .null => true
          | .str p => (parsePattern p).isSome
          | _ => false) = true) :
    ∃ l, patternErrs fr v name = .ok l := by
  unfold patternErrs
  rcases hp : (dictLookup fr "pattern").getD .null with _ | b | n | s | xs | xs <;>
    first
      | exact ⟨_, rfl⟩
      | (rw [hp] at h; simp at h)
      | skip
  rcases hps : parsePattern s with _ | r
  · rw [hps] at h
    simp at h
  · refine ⟨if matchPrefix r v.data = true then []
      else [fieldMsg name "does not match required pattern"], ?_⟩
    show (match parsePattern s with
      | some r => Except.ok (if matchPrefix r v.data = true then []
          else [fieldMsg name "does not match required pattern"])
      | none => Except.error PyErr.reError) = _
    rw [hps]

/-- The enum check cannot raise when the enum is absent or a list. -/
theorem enumErrs_isOk (fr : List (String × Value)) (v name : String)
    (h : (isNull ((dictLookup fr "enum").getD .null) ||
          isListV ((dictLookup fr "enum").getD .null)) = true) :
    ∃ l, enumErrs fr v name = .ok l := by
  unfold enumErrs
  rcases he : (dictLookup fr "enum").getD .null with _ | b | n | s | xs | xs <;>
    first
      | exact ⟨_, rfl⟩
      | (rw [he] at h; simp [isNull, isListV] at h)

/-- The `min_items` check cannot raise when the bound is absent or
numeric. -/
theorem arrayErrs_isOk (fr : List (String × Value)) (xs : List Value) (name : String)
    (h : (isNull ((dictLookup fr "min_items").getD .null) ||
          isNumV ((dictLookup fr "min_items").getD .null)) = true) :
    ∃ l, arrayErrs fr xs name = .ok l := by
  unfold arrayErrs
  rcases hm : (dictLookup fr "min_items").getD .null with _ | b | n | s | ys | ys <;>
    first
      | exact ⟨_, rfl⟩
      | (rw [hm] at h; simp [isNull, isNumV] at h)

/-- The `min` bound check cannot raise when the bound is absent or
numeric. -/
theorem minBoundErrs_isOk (fr : List (String × Value)) (n : Int) (name : String)
    (h : (isNull ((dictLookup fr "min").getD .null) ||
          isNumV ((dictLookup fr "min").getD .null)) = true) :
    ∃ l, minBoundErrs fr n name = .ok l := by
  unfold minBoundErrs
  rcases hm : (dictLookup fr "min").getD .null with _ | b | m | s | xs | xs <;>
    first
      | exact ⟨_, rfl⟩
      | (rw [hm] at h; simp [isNull, isNumV] at h)

/-- The `max` bound check cannot raise when the bound is absent or
numeric. -/
theorem maxBoundErrs_isOk (fr : List (String × Value)) (n : Int) (name : String)
    (h : (isNull ((dictLookup fr "max").getD .null) ||
          isNumV ((dictLookup fr "max").getD .null)) = true) :
    ∃ l, maxBoundErrs fr n name = .ok l := by
  unfold maxBoundErrs
  rcases hm : (dictLookup fr "max").getD .null with _ | b | m | s | xs | xs <;>
    first
      | exact ⟨_, rfl⟩
      | (rw [hm] at h; simp [isNull, isNumV] at h)

/-- The numeric threshold check cannot raise when the threshold is absent
or numeric. -/
theorem thresholdBoundErrs_isOk (fr : List (String × Value)) (n : Int) (name : String)
    (h : (isNull ((dictLookup fr "threshold").getD .null) ||
          isNumV ((dictLookup fr "threshold").getD .null)) = true) :
    ∃ l, thresholdBoundErrs fr n name = .ok l := by
  unfold thresholdBoundErrs
  rcases hm : (dictLookup fr "threshold").getD .null with _ | b | m | s | xs | xs <;>
    first
      | exact ⟨_, rfl⟩
      | (rw [hm] at h; simp [isNull, isNumV] at h)

/-- The numeric block cannot raise under the three bound conditions. -/
theorem numberErrs_isOk (fr : List (String × Value)) (n : Int) (name : String)
    (h1 : (isNull ((dictLookup fr "min").getD .null) ||
           isNumV ((dictLookup fr "min").getD .null)) = true)
    (h2 : (isNull ((dictLookup fr "max").getD .null) ||
           isNumV ((dictLookup fr "max").getD .null)) = true)
    (h3 : (isNull ((dictLookup fr "threshold").getD .null) ||
           isNumV ((dictLookup fr "threshold").getD .null)) = true) :
    ∃ l, numberErrs fr n name = .ok l := by
  obtain ⟨a, ha⟩ := minBoundErrs_isOk fr n name h1
  obtain ⟨b, hb⟩ := maxBoundErrs_isOk fr n name h2
  obtain ⟨c, hc⟩ := thresholdBoundErrs_isOk fr n name h3
  exact ⟨a ++ b ++ c, by simp [numberErrs, ha, hb, hc, bind, Except.bind, pure, Except.pure]⟩

/-- Evaluating the two rank lookups and combining them succeeds when both
lookups succeed. -/
theorem rank_chain_ok (ea eb : Except PyErr Nat) (f : Nat → Nat → List String)
    (a b : Nat) (ha : ea = .ok a) (hb : eb = .ok b) :
    (do
      let x ← ea
      let y ← eb
      pure (f x y) : Except PyErr (List String)) = .ok (f a b) := by
  subst ha
  subst hb
  rfl

/-- The confidence ordinal check cannot raise when the threshold and (for
confidence-named fields) the value are hashable. -/
theorem confErrs_isOk (fr : List (String × Value)) (fv : Value) (name : String)
    (hth : (!isListV ((dictLookup fr "threshold").getD .null) &&
            !isDictV ((dictLookup fr "threshold").getD .null)) = true)
    (hfv : strEndsWith name "confidence" = true → (!isListV fv && !isDictV fv) = true) :
    ∃ l, confErrs fr fv name = .ok l := by
  unfold confErrs
  by_cases hn : strEndsWith name "confidence" = true
  · rw [if_pos hn]
    obtain ⟨rv, hrv⟩ := rankOf_isOk fv (hfv hn)
    rcases hm : (dictLookup fr "threshold").getD .null with _ | b | m | s | xs | xs
    · exact ⟨[], rfl⟩
    · exact ⟨_, rank_chain_ok _ _ (fun req act => if act < req then
        [fieldMsg name ("should be at least '" ++ pyStrOf (Value.bool b) ++ "'")]
        else []) 0 rv rfl hrv⟩
    · exact ⟨_, rank_chain_ok _ _ (fun req act => if act < req then
        [fieldMsg name ("should be at least '" ++ pyStrOf (Value.int m) ++ "'")]
        else []) 0 rv rfl hrv⟩
    · exact ⟨_, rank_chain_ok _ _ (fun req act => if act < req then
        [fieldMsg name ("should be at least '" ++ pyStrOf (Value.str s) ++ "'")]
        else []) (confidenceRank s) rv rfl hrv⟩
    · rw [hm] at hth
      simp [isListV, isDictV] at hth
    · rw [hm] at hth
      simp [isListV, isDictV] at hth
  · rw [if_neg hn]
    exact ⟨[], rfl⟩

/-- Attribute well-formedness of one rule mapping: every attribute a
check may compare, match or rank has a shape on which the corresponding
Python operation cannot raise. -/
def wfRuleAttrs (fr : List (String × Value)) : Bool :=
  (if pyEqStr ((dictLookup fr "type").getD .null) "string" then
     (isNull ((dictLookup fr "min_length").getD .null) ||
       isNumV ((dictLookup fr "min_length").getD .null)) &&
     (match (dictLookup fr "pattern").getD .null with
      | .null => true
      | .str p => (parsePattern p).isSome
      | _ => false) &&
     (isNull ((dictLookup fr "enum").getD .null) ||
       isListV ((dictLookup fr "enum").getD .null))
   else true) &&
  (if pyEqStr ((dictLookup fr "type").getD .null) "array" then
     isNull ((dictLookup fr "min_items").getD .null) ||
       isNumV ((dictLookup fr "min_items").getD .null)
   else true) &&
  (if pyEqStr ((dictLookup fr "type").getD .null) "number" then
     (isNull ((dictLookup fr "min").getD .null) ||
       isNumV ((dictLookup fr "min").getD .null)) &&
     (isNull ((dictLookup fr "max").getD .null) ||
       isNumV ((dictLookup fr "max").getD .null)) &&
     (isNull ((dictLookup fr "threshold").getD .null) ||
       isNumV ((dictLookup fr "threshold").getD .null))
   else true) &&
  (!isListV ((dictLookup fr "threshold").getD .null) &&
    !isDictV ((dictLookup fr "threshold").getD .null))

/-- Convert an `isOk` fact into an explicit `.ok` equation. -/
theorem exists_ok_of_isOk {α : Type} (e : Except PyErr α) (h : e.isOk = true) :
    ∃ a, e = .ok a := by
  cases e with
  | ok a => exact ⟨a, rfl⟩
  | error e => cases h

/-- The Field Validator cannot raise on a rule with well-formed
attributes, provided the value is hashable when the field name triggers
the confidence ordinal check. -/
theorem vfs_isOk (fv : Value) (fr : List (String × Value)) (name : String)
    (hattr : wfRuleAttrs fr = true)
    (hconf : strEndsWith name "confidence" = true → (!isListV fv && !isDictV fv) = true) :
    ∃ r, validate_field_structure fv (.dict fr) name = .ok r := by
  simp only [wfRuleAttrs, Bool.and_eq_true] at hattr
  obtain ⟨⟨⟨hS, hA⟩, hN⟩, hTh⟩ := hattr
  have hTh' : (!isListV ((dictLookup fr "threshold").getD .null) &&
      !isDictV ((dictLookup fr "threshold").getD .null)) = true := by
    rw [Bool.and_eq_true]
    exact hTh
  obtain ⟨lc, hc⟩ := confErrs_isOk fr fv name hTh' hconf
  simp only [validate_field_structure]
  by_cases h1 : (pyTruthy ((dictLookup fr "required").getD (.bool false)) && isNull fv) = true
  · rw [if_pos h1]
    exact ⟨_, rfl⟩
  rw [if_neg h1]
  by_cases h2 : (!pyTruthy ((dictLookup fr "required").getD (.bool false)) && isNull fv) = true
  · rw [if_pos h2]
    exact ⟨_, rfl⟩
  rw [if_neg h2]
  rcases fv with _ | b | n | s | xs | ds
  · -- fv = null: contradiction between h1 and h2
    simp [isNull] at h1 h2
    exact absurd h2 (by simp [h1])
  · -- bool: only the number block can run
    by_cases hnum : pyEqStr ((dictLookup fr "type").getD .null) "number" = true
    · rw [if_pos hnum] at hN
      simp only [Bool.and_eq_true] at hN
      obtain ⟨⟨hmn, hmx⟩, hth2⟩ := hN
      obtain ⟨ln, hn⟩ := numberErrs_isOk fr (numOf (.bool b)) name hmn hmx hth2
      refine exists_ok_of_isOk _ ?_
      simp [hnum, hn, hc, isStr, isNumV, isListV, isDictV, bind, Except.bind, pure,
        Except.pure, Except.isOk, Except.toBool]
    · refine exists_ok_of_isOk _ ?_
      simp [hnum, hc, isStr, isNumV, isListV, isDictV, bind, Except.bind, pure,
        Except.pure, Except.isOk, Except.toBool]
  · by_cases hnum : pyEqStr ((dictLookup fr "type").getD .null) "number" = true
    · rw [if_pos hnum] at hN
      simp only [Bool.and_eq_true] at hN
      obtain ⟨⟨hmn, hmx⟩, hth2⟩ := hN
      obtain ⟨ln, hn⟩ := numberErrs_isOk fr (numOf (.int n)) name hmn hmx hth2
      refine exists_ok_of_isOk _ ?_
      simp [hnum, hn, hc, isStr, isNumV, isListV, isDictV, bind, Except.bind, pure,
        Except.pure, Except.isOk, Except.toBool]
    · refine exists_ok_of_isOk _ ?_
      simp [hnum, hc, isStr, isNumV, isListV, isDictV, bind, Except.bind, pure,
        Except.pure, Except.isOk, Except.toBool]
  · -- str: only the string block can run
    by_cases hs : pyEqStr ((dictLookup fr "type").getD .null) "string" = true
    · rw [if_pos hs] at hS
      simp only [Bool.and_eq_true] at hS
      obtain ⟨⟨hml, hpat⟩, hen⟩ := hS
      obtain ⟨la, hla⟩ := minLengthErrs_isOk fr s name hml
      obtain ⟨lb, hlb⟩ := patternErrs_isOk fr s name hpat
      obtain ⟨le, hle⟩ := enumErrs_isOk fr s name hen
      refine exists_ok_of_isOk _ ?_
      simp [hs, hla, hlb, hle, hc, isStr, isNumV, isListV, isDictV, bind, Except.bind,
        pure, Except.pure, Except.isOk, Except.toBool]
    · refine exists_ok_of_isOk _ ?_
      simp [hs, hc, isStr, isNumV, isListV, isDictV, bind, Except.bind, pure,
        Except.pure, Except.isOk, Except.toBool]
  · -- list: only the array block can run
    by_cases harr : pyEqStr ((dictLookup fr "type").getD .null) "array" = true
    · rw [if_pos harr] at hA
      obtain ⟨la, hla⟩ := arrayErrs_isOk fr xs name hA
      refine exists_ok_of_isOk _ ?_
      simp [harr, hla, hc, isStr, isNumV, isListV, isDictV, bind, Except.bind, pure,
        Except.pure, Except.isOk, Except.toBool]
    · refine exists_ok_of_isOk _ ?_
      simp [harr, hc, isStr, isNumV, isListV, isDictV, bind, Except.bind, pure,
        Except.pure, Except.isOk, Except.toBool]
  · -- dict: no typed block can run
    refine exists_ok_of_isOk _ ?_
    simp [hc, isStr, isNumV, isListV, isDictV, bind, Except.bind, pure,
      Except.pure, Except.isOk, Except.toBool]

/-- Well-formedness of one field rule: a mapping with well-formed
attributes whose nested `confidence`/`score` sub-rules, when present, are
mappings with well-formed attributes. -/
def wfFieldRule (v : Value) : Bool :=
  match v with
  | .dict fr =>
    wfRuleAttrs fr &&
    (match dictLookup fr "confidence" with
     | none => true
     | some (.dict cr) => wfRuleAttrs cr
     | some _ => false) &&
    (match dictLookup fr "score" with
     | none => true
     | some (.dict sr2) => wfRuleAttrs sr2
     | some _ => false)
  | _ => false

/-- Every canonical field's rule (when present) is well-formed. -/
def wfFields (fl : List (String × Value)) : Bool :=
  field_name_mapping.all (fun p =>
    match dictLookup fl p.1 with
    | none => true
    | some r => wfFieldRule r)

/-- A well-formed segment is a mapping whose segment-level `confidence`
value, if any, is hashable. -/
def wfSegment (v : Value) : Bool :=
  match v with
  | .dict xs =>
    !isListV ((dictLookup xs "confidence").getD .null) &&
    !isDictV ((dictLookup xs "confidence").getD .null)
  | _ => false

/-- Well-formedness of the `segments` rule node: numeric-or-absent
`min_items` and an `item_schema.fields` mapping of well-formed rules. -/
def wfSegmentsRules (v : Value) : Bool :=
  match v with
  | .dict sr =>
    (match dictLookup sr "min_items" with
     | none => true
     | some m => isNumV m) &&
    (match dictLookup sr "item_schema" with
     | some (.dict isch) =>
       (match dictLookup isch "fields" with
        | some (.dict fl) => wfFields fl
        | _ => false)
     | _ => false)
  | _ => false

/-- A well-formed rule set: the `validation.structure.fields.segments`
nesting resolves and yields a well-formed segments rule. -/
def wfRules (rules : Value) : Bool :=
  match segmentsRulesOf rules with
  | .ok srv => wfSegmentsRules srv
  | .error _ => false

/-- A well-formed document: a mapping whose `segments` value, when it is
a list, contains only well-formed segments. -/
def wfDocument (v : Value) : Bool :=
  match v with
  | .dict xs =>
    match dictLookup xs "segments" with
    | some (.list segs) => segs.all wfSegment
    | _ => true
  | _ => false

/-- Combined well-formedness of the two collaborator outcomes; failure
outcomes need no conditions (they short-circuit before any lookup). -/
def wfInput : JsonInput → RulesOutcome → Bool
  | .parsed d, .loaded rv => wfDocument d && wfRules rv
  | _, _ => true

/-- One field's processing cannot raise under a well-formed rule and
hashable segment confidence, for a field name without the confidence
suffix. -/
theorem processField_isOk (seg : List (String × Value)) (fl : List (String × Value))
    (fname : String) (aliases : List String)
    (hrule : (match dictLookup fl fname with
              | none => true
              | some r => wfFieldRule r) = true)
    (hcv : (!isListV ((dictLookup seg "confidence").getD .null) &&
            !isDictV ((dictLookup seg "confidence").getD .null)) = true)
    (hfname : strEndsWith fname "confidence" = false)
    (hsname : strEndsWith (fname ++ "_score") "confidence" = false) :
    ∃ fv, processField seg (.dict fl) fname aliases = .ok fv := by
  rcases hres : resolveField seg aliases with ⟨jn, w⟩
  rcases hlf : dictLookup fl fname with _ | rv
  · rw [hlf] at hrule
    obtain ⟨r0, hr0⟩ := vfs_isOk w [] fname (by decide)
      (fun hx => by rw [hfname] at hx; cases hx)
    obtain ⟨p0, q0⟩ := r0
    exact ⟨FieldValidation.mk p0 jn q0, by
      simp [processField, hres, hlf, hr0, pyGetD, pyContainsKey, dictLookup, bind,
        Except.bind, pure, Except.pure]⟩
  · rw [hlf] at hrule
    rcases rv with _ | b | n | s | ys | fr
    · simp [wfFieldRule] at hrule
    · simp [wfFieldRule] at hrule
    · simp [wfFieldRule] at hrule
    · simp [wfFieldRule] at hrule
    · simp [wfFieldRule] at hrule
    simp only [wfFieldRule, Bool.and_eq_true] at hrule
    obtain ⟨⟨hattr, hcsub⟩, hssub⟩ := hrule
    obtain ⟨⟨b0, e0⟩, hr0⟩ := vfs_isOk w fr fname hattr
      (fun hx => by rw [hfname] at hx; cases hx)
    by_cases hg1 : (!isNull ((dictLookup seg "confidence").getD .null) &&
        pyContainsKey (.dict fr) "confidence") = true
    · have hsome : (dictLookup fr "confidence").isSome = true := by
        rw [Bool.and_eq_true] at hg1
        simpa [pyContainsKey] using hg1.2
      rcases hcr : dictLookup fr "confidence" with _ | cr
      · rw [hcr] at hsome
        cases hsome
      rw [hcr] at hcsub
      rcases cr with _ | b2 | n2 | s2 | ys2 | crd
      · simp at hcsub
      · simp at hcsub
      · simp at hcsub
      · simp at hcsub
      · simp at hcsub
      obtain ⟨⟨b1, e1⟩, hr1⟩ := vfs_isOk ((dictLookup seg "confidence").getD .null) crd
        (fname ++ "_confidence") hcsub (fun _ => hcv)
      by_cases hg2 : (!isNull ((dictLookup seg "score").getD .null) &&
          pyContainsKey (.dict fr) "score") = true
      · have hsome2 : (dictLookup fr "score").isSome = true := by
          rw [Bool.and_eq_true] at hg2
          simpa [pyContainsKey] using hg2.2
        rcases hsr2 : dictLookup fr "score" with _ | sr2
        · rw [hsr2] at hsome2
          cases hsome2
        rw [hsr2] at hssub
        rcases sr2 with _ | b3 | n3 | s3 | ys3 | srd
        · simp at hssub
        · simp at hssub
        · simp at hssub
        · simp at hssub
        · simp at hssub
        obtain ⟨⟨b2', e2'⟩, hr2⟩ := vfs_isOk ((dictLookup seg "score").getD .null) srd
          (fname ++ "_score") hssub (fun hx => by rw [hsname] at hx; cases hx)
        exact ⟨FieldValidation.mk (b0 && b1 && b2') jn (e0 ++ (e1 ++ e2')), by
          simp [processField, hres, hlf, hr0, hg1, hcr, hr1, hg2, hsr2, hr2,
            pyGetD, pyIndexS, bind, Except.bind, pure, Except.pure]⟩
      · exact ⟨FieldValidation.mk (b0 && b1) jn (e0 ++ e1), by
          simp [processField, hres, hlf, hr0, hg1, hcr, hr1, hg2,
            pyGetD, pyIndexS, bind, Except.bind, pure, Except.pure]⟩
    · by_cases hg2 : (!isNull ((dictLookup seg "score").getD .null) &&
          pyContainsKey (.dict fr) "score") = true
      · have hsome2 : (dictLookup fr "score").isSome = true := by
          rw [Bool.and_eq_true] at hg2
          simpa [pyContainsKey] using hg2.2
        rcases hsr2 : dictLookup fr "score" with _ | sr2
        · rw [hsr2] at hsome2
          cases hsome2
        rw [hsr2] at hssub
        rcases sr2 with _ | b3 | n3 | s3 | ys3 | srd
        · simp at hssub
        · simp at hssub
        · simp at hssub
        · simp at hssub
        · simp at hssub
        obtain ⟨⟨b2', e2'⟩, hr2⟩ := vfs_isOk ((dictLookup seg "score").getD .null) srd
          (fname ++ "_score") hssub (fun hx => by rw [hsname] at hx; cases hx)
        exact ⟨FieldValidation.mk (b0 && b2') jn (e0 ++ e2'), by
          simp [processField, hres, hlf, hr0, hg1, hg2, hsr2, hr2,
            pyGetD, pyIndexS, bind, Except.bind, pure, Except.pure]⟩
      · exact ⟨FieldValidation.mk b0 jn e0, by
          simp [processField, hres, hlf, hr0, hg1, hg2,
            pyGetD, pyIndexS, bind, Except.bind, pure, Except.pure]⟩

/-- Processing a list of canonical fields cannot raise when every field
satisfies the per-field conditions. -/
theorem processFields_isOk (seg : List (String × Value)) (fl : List (String × Value))
    (hcv : (!isListV ((dictLookup seg "confidence").getD .null) &&
            !isDictV ((dictLookup seg "confidence").getD .null)) = true) :
    ∀ L : List (String × List String),
      (∀ p ∈ L, (match dictLookup fl p.1 with
                 | none => true
                 | some r => wfFieldRule r) = true ∧
        strEndsWith p.1 "confidence" = false ∧
        strEndsWith (p.1 ++ "_score") "confidence" = false) →
      ∃ out, processFields seg (.dict fl) L = .ok out := by
  intro L
  induction L with
  | nil => exact fun _ => ⟨[], rfl⟩
  | cons p rest ih =>
    intro hL
    obtain ⟨h1, h2, h3⟩ := hL p (List.mem_cons_self p rest)
    obtain ⟨fv, hfv⟩ := processField_isOk seg fl p.1 p.2 h1 hcv h2 h3
    obtain ⟨out, hout⟩ := ih (fun q hq => hL q (List.mem_cons_of_mem p hq))
    exact ⟨(p.1, fv) :: out, by
      simp [processFields, hfv, hout, bind, Except.bind, pure, Except.pure]⟩

/-- Segment processing cannot raise under a well-formed rule set and a
well-formed segment. -/
theorem processSegment_isOk (sr isch fl : List (String × Value)) (i : Nat)
    (xs : List (String × Value))
    (hisch : dictLookup sr "item_schema" = some (.dict isch))
    (hfl : dictLookup isch "fields" = some (.dict fl))
    (hwf : wfFields fl = true)
    (hseg : wfSegment (.dict xs) = true) :
    ∃ sv, processSegment (.dict sr) i (.dict xs) = .ok sv := by
  have hcv : (!isListV ((dictLookup xs "confidence").getD .null) &&
      !isDictV ((dictLookup xs "confidence").getD .null)) = true := by
    simpa [wfSegment] using hseg
  simp only [wfFields, List.all_eq_true] at hwf
  have hnames : ∀ p ∈ field_name_mapping,
      strEndsWith p.1 "confidence" = false ∧
      strEndsWith (p.1 ++ "_score") "confidence" = false := by decide
  obtain ⟨out, hout⟩ := processFields_isOk xs fl hcv field_name_mapping
    (fun p hp => ⟨hwf p hp, (hnames p hp).1, (hnames p hp).2⟩)
  exact ⟨SegmentValidation.mk i
      ((dictLookup xs "Segment Title").getD
        ((dictLookup xs "segment_title").getD (Value.str "Unknown")))
      (out.all fun p => p.2.valid) out, by
    simp [processSegment, hisch, hfl, hout, pyGetD, pyIndexS, bind, Except.bind,
      pure, Except.pure]⟩

/-- Processing a list of well-formed segments cannot raise. -/
theorem processSegments_isOk (sr isch fl : List (String × Value))
    (hisch : dictLookup sr "item_schema" = some (.dict isch))
    (hfl : dictLookup isch "fields" = some (.dict fl))
    (hwf : wfFields fl = true) :
    ∀ (segs : List Value) (i : Nat), segs.all wfSegment = true →
      ∃ svs, processSegments (.dict sr) i segs = .ok svs := by
  intro segs
  induction segs with
  | nil => exact fun _ _ => ⟨[], rfl⟩
  | cons s rest ih =>
    intro i hall
    simp only [List.all_cons, Bool.and_eq_true] at hall
    obtain ⟨hs, hrest⟩ := hall
    rcases s with _ | b | n | st | ys | xs
    · simp [wfSegment] at hs
    · simp [wfSegment] at hs
    · simp [wfSegment] at hs
    · simp [wfSegment] at hs
    · simp [wfSegment] at hs
    obtain ⟨sv, hsv⟩ := processSegment_isOk sr isch fl i xs hisch hfl hwf hs
    obtain ⟨svs, hsvs⟩ := ih (i + 1) hrest
    exact ⟨sv :: svs, by
      simp [processSegments, hsv, hsvs, bind, Except.bind, pure, Except.pure]⟩

/-- C1 (amended): the claim as stated is refuted by `c1_counterexample`
(the rule-set nesting access at line 148 runs outside every `try` block);
what holds is: for well-formed inputs — the rules value contains the
`validation.structure.fields.segments` nesting of mappings with an
`item_schema.fields` mapping of well-typed field rules, the document is a
mapping whose segments are mappings with hashable segment-level
confidence values — `validate_video_summary` always terminates and
returns a well-formed Report, and whenever that Report carries an error
string its `valid` flag is false. -/
theorem c1_amended (j : JsonInput) (path : String) (r : RulesOutcome)
    (h : wfInput j r = true) :
    ∃ rep, validate_video_summary j path r = .ok rep ∧
      (rep.error.isSome → rep.valid = false) := by
  cases j with
  | malformed => exact ⟨_, rfl, fun _ => rfl⟩
  | parsed data =>
    cases r with
    | notFound => exact ⟨_, rfl, fun _ => rfl⟩
    | loadError e => exact ⟨_, rfl, fun _ => rfl⟩
    | loaded rules =>
      simp only [wfInput, Bool.and_eq_true] at h
      obtain ⟨hdoc, hrul⟩ := h
      unfold wfRules at hrul
      rcases hsr : segmentsRulesOf rules with e | srv
      · rw [hsr] at hrul
        simp at hrul
      rw [hsr] at hrul
      rcases srv with _ | b | n | s | ys | sr
      · simp [wfSegmentsRules] at hrul
      · simp [wfSegmentsRules] at hrul
      · simp [wfSegmentsRules] at hrul
      · simp [wfSegmentsRules] at hrul
      · simp [wfSegmentsRules] at hrul
      have hrul' : wfSegmentsRules (.dict sr) = true := hrul
      simp only [wfSegmentsRules, Bool.and_eq_true] at hrul'
      obtain ⟨hmin, hisc⟩ := hrul'
      rcases hisch0 : dictLookup sr "item_schema" with _ | isv
      · rw [hisch0] at hisc
        simp at hisc
      rw [hisch0] at hisc
      rcases isv with _ | b | n | s | ys | isch
      · simp at hisc
      · simp at hisc
      · simp at hisc
      · simp at hisc
      · simp at hisc
      have hisc2 : (match dictLookup isch "fields" with
          | some (.dict fl) => wfFields fl
          | _ => false) = true := hisc
      rcases hfl0 : dictLookup isch "fields" with _ | flv
      · rw [hfl0] at hisc2
        simp at hisc2
      rw [hfl0] at hisc2
      rcases flv with _ | b | n | s | ys | fl
      · simp at hisc2
      · simp at hisc2
      · simp at hisc2
      · simp at hisc2
      · simp at hisc2
      have hwfl : wfFields fl = true := hisc2
      rcases data with _ | b | n | s | ys | xs
      · simp [wfDocument] at hdoc
      · simp [wfDocument] at hdoc
      · simp [wfDocument] at hdoc
      · simp [wfDocument] at hdoc
      · simp [wfDocument] at hdoc
      rcases hsegk : dictLookup xs "segments" with _ | segv
      · refine ⟨errReport "Required field 'segments' is missing", ?_, fun _ => rfl⟩
        simp [validate_video_summary, hsr, hsegk, pyContains, bind, Except.bind,
          pure, Except.pure]
      rcases segv with _ | b2 | n2 | s2 | segs | ds
      · refine ⟨errReport "Field 'segments' should be an array", ?_, fun _ => rfl⟩
        simp [validate_video_summary, hsr, hsegk, pyContains, pyIndexS, bind,
          Except.bind, pure, Except.pure]
      · refine ⟨errReport "Field 'segments' should be an array", ?_, fun _ => rfl⟩
        simp [validate_video_summary, hsr, hsegk, pyContains, pyIndexS, bind,
          Except.bind, pure, Except.pure]
      · refine ⟨errReport "Field 'segments' should be an array", ?_, fun _ => rfl⟩
        simp [validate_video_summary, hsr, hsegk, pyContains, pyIndexS, bind,
          Except.bind, pure, Except.pure]
      · refine ⟨errReport "Field 'segments' should be an array", ?_, fun _ => rfl⟩
        simp [validate_video_summary, hsr, hsegk, pyContains, pyIndexS, bind,
          Except.bind, pure, Except.pure]
      case dict =>
        refine ⟨errReport "Field 'segments' should be an array", ?_, fun _ => rfl⟩
        simp [validate_video_summary, hsr, hsegk, pyContains, pyIndexS, bind,
          Except.bind, pure, Except.pure]
      case list =>
        have hall : segs.all wfSegment = true := by
          simpa [wfDocument, hsegk] using hdoc
        have hmex : ∃ b, pyLtIntV (segs.length : Int)
            ((dictLookup sr "min_items").getD (.int 0)) = .ok b := by
          rcases hmk : dictLookup sr "min_items" with _ | mv
          · exact ⟨decide ((segs.length : Int) < 0), by simp [hmk, pyLtIntV]⟩
          · rw [hmk] at hmin
            have hmv : isNumV mv = true := hmin
            refine pyLtIntV_isOk _ _ ?_
            simpa using hmv
        obtain ⟨bshort, hbs⟩ := hmex
        by_cases hb : bshort = true
        · refine ⟨Report.mk false
            (some ("There should be at least " ++
              pyStrOf ((dictLookup sr "min_items").getD (.int 0)) ++ " segments"))
            [] (Summary.mk segs.length 0 segs.length "FAIL"), ?_, fun _ => rfl⟩
          simp [validate_video_summary, hsr, hsegk, hbs, hb, pyContains, pyIndexS,
            pyGetD, bind, Except.bind, pure, Except.pure]
        · obtain ⟨svs, hsvs⟩ := processSegments_isOk sr isch fl hisch0 hfl0 hwfl segs 0 hall
          refine ⟨Report.mk ((svs.filter (fun s => s.valid)).length == segs.length) none svs
            (Summary.mk segs.length ((svs.filter (fun s => s.valid)).length)
              (segs.length - (svs.filter (fun s => s.valid)).length)
              (if (svs.filter (fun s => s.valid)).length == segs.length
                then "PASS" else "FAIL")), ?_, ?_⟩
          · simp [validate_video_summary, hsr, hsegk, hbs, hb, hsvs, pyContains,
              pyIndexS, pyGetD, bind, Except.bind, pure, Except.pure]
          · intro hx
            simp at hx

/-- Counterexample to C1 as stated: an empty rule-set mapping makes the
access `rules["validation"]["structure"]["fields"]["segments"]` raise a
KeyError that escapes to the caller. -/
theorem c1_counterexample :
    validate_video_summary (.parsed (.dict [("segments", .list [])])) "rules.yaml"
      (.loaded (.dict [])) = .error .keyError := rfl

/-- Witness for C1 (amended): a complete well-formed document and rule
set (scenario C enriched with a pattern and a nested confidence
sub-rule). -/
theorem c1_witness :
    wfInput (.parsed (.dict [("segments", .list [.dict [("Segment Title", .str "Intro"),
        ("Names", .list [.str "A", .str "B"])]])]))
      (.loaded (.dict [("validation", .dict [("structure", .dict [("fields", .dict
        [("segments", .dict [("min_items", .int 1), ("item_schema", .dict [("fields", .dict
          [("segment_title", .dict [("type", .str "string"), ("required", .bool true),
              ("pattern", .str "^[A-Z]")]),
           ("names", .dict [("type", .str "array"), ("min_items", .int 1),
              ("confidence", .dict [("threshold", .str "high")])])])])])])])])])) = true ∧
    ∃ rep, validate_video_summary
        (.parsed (.dict [("segments", .list [.dict [("Segment Title", .str "Intro"),
          ("Names", .list [.str "A", .str "B"])]])])) "rules.yaml"
        (.loaded (.dict [("validation", .dict [("structure", .dict [("fields", .dict
          [("segments", .dict [("min_items", .int 1), ("item_schema", .dict [("fields", .dict
            [("segment_title", .dict [("type", .str "string"), ("required", .bool true),
                ("pattern", .str "^[A-Z]")]),
             ("names", .dict [("type", .str "array"), ("min_items", .int 1),
                ("confidence", .dict [("threshold", .str "high")])])])])])])])])])) =
        .ok rep ∧ (rep.error.isSome → rep.valid = false) :=
  ⟨rfl, c1_amended _ "rules.yaml" _ rfl⟩
